import Mathlib

/-!
Verification development for the `label-mastering` repository.

The repository is a Go service skeleton for audio quality-control (QC) of
mastered mix files.  The shallow embedding below translates:

* `internal/qc/engine.go` — the `Input`/`Result` types, the `Engine`
  interface and the `Service` wrapper;
* `internal/qc/ffmpeg.go` — `FFmpegOrchestrator.Analyze`, the sole
  implementation of `Engine` (an unimplemented stub that always returns an
  error);
* `internal/domain/entities.go` — `MixType`, `JobStatus`, `QCResult`, `Job`;
* `migrations/001_init.sql` — the `qc_jobs` column list;
* the S3 adapter — `DownloadToPath`, which always returns a nil error;
* the service-layer `JobRepository` boundary — only `Save` and `Update`.

Go conventions used throughout the embedding: `float64` measurement values
are modelled as `ℚ`; `time.Time` values as `Int` timestamps; a Go `error`
return as `Option String` (`none` = nil error); a Go `map[string]bool` as an
association list `List (String × Bool)` whose lookup defaults to `false`
for absent keys, exactly like a Go map read; a nil slice/map zero value
as `[]`; `context.Context` as the opaque type `Ctx`.

The QC Decision Engine's `Evaluate` operation and the Job Lifecycle
Manager's completion step are specified in the repository's design
documents but absent from the Go sources (the repository implements only
scaffolding around them; `FFmpegOrchestrator.Analyze` literally returns the
error "ffmpeg orchestration not implemented").  Those two operations are
modelled from the specification text and are marked `Modelled from the
spec:` in their doc comments.
-/

/-- Go `context.Context`, opaque to all code in this repository. -/
structure Ctx where

namespace qc

/-- `qc.Input` from `internal/qc/engine.go`: path, filename, mix type. -/
structure Input where
  path : String
  filename : String
  mixType : String
deriving DecidableEq

/-- `qc.Result` from `internal/qc/engine.go`: raw measurements plus the
verdict fields (`Passed`, `Failures`). -/
structure Result where
  sampleRate : Int
  bitDepth : Int
  channels : Int
  integratedLUFS : ℚ
  truePeakDBTP : ℚ
  filenameValid : Bool
  metadataPresent : List (String × Bool)
  passed : Bool
  failures : List String
deriving DecidableEq

/-- The Go zero value of `qc.Result`: numeric fields 0, booleans false,
nil map and nil slice (modelled as `[]`).  `return Result{}, ...` in
`ffmpeg.go` produces exactly this value. -/
def Result.zero : Result :=
  { sampleRate := 0
    bitDepth := 0
    channels := 0
    integratedLUFS := 0
    truePeakDBTP := 0
    filenameValid := false
    metadataPresent := []
    passed := false
    failures := [] }

/-- `qc.FFmpegOrchestrator` from `internal/qc/ffmpeg.go`: an empty struct. -/
structure FFmpegOrchestrator where

/-- `FFmpegOrchestrator.Analyze` from `internal/qc/ffmpeg.go`, the sole
implementation of the `Engine` interface.  The Go body is
`return Result{}, errors.New("ffmpeg orchestration not implemented")` —
it ignores its inputs and always returns the zero `Result` together with a
non-nil error. -/
def FFmpegOrchestrator.Analyze (_o : FFmpegOrchestrator) (_ctx : Ctx) (_in : Input) :
    Result × Option String :=
  (Result.zero, some "ffmpeg orchestration not implemented")

/-- `qc.Service` from `internal/qc/engine.go`, holding an `Engine`.  The
interface method `Analyze` is modelled as the function field `analyze`. -/
structure Service where
  analyze : Ctx → Input → Result × Option String

/-- `Service.Run` from `internal/qc/engine.go`: delegates to the engine. -/
def Service.Run (s : Service) (ctx : Ctx) (i : Input) : Result × Option String :=
  s.analyze ctx i

end qc

namespace domain

/-- `domain.JobStatus` from `internal/domain/entities.go`
(QUEUED / RUNNING / COMPLETED / FAILED). -/
inductive JobStatus where
  | queued
  | running
  | completed
  | failed
deriving DecidableEq

/-- `domain.QCResult` from `internal/domain/entities.go` (same shape as
`qc.Result`). -/
structure QCResult where
  sampleRate : Int
  bitDepth : Int
  channels : Int
  integratedLUFS : ℚ
  truePeakDBTP : ℚ
  filenameValid : Bool
  metadataPresent : List (String × Bool)
  passed : Bool
  failures : List String
deriving DecidableEq

/-- `domain.Job` from `internal/domain/entities.go`, with exactly the ten
fields of the Go struct, in declaration order. -/
structure Job where
  id : String
  releaseID : String
  trackID : String
  mixFileID : String
  status : JobStatus
  error : String
  result : Option QCResult
  queuedAt : Int
  startedAt : Option Int
  finishedAt : Option Int
deriving DecidableEq

/-- The field names of the Go struct `domain.Job`, transcribed from
`internal/domain/entities.go` in declaration order. -/
def jobFields : List String :=
  ["ID", "ReleaseID", "TrackID", "MixFileID", "Status", "Error", "Result",
   "QueuedAt", "StartedAt", "FinishedAt"]

end domain

namespace migrations

/-- The column names of the `qc_jobs` table, transcribed from
`migrations/001_init.sql` in declaration order. -/
def qcJobsColumns : List String :=
  ["id", "release_id", "track_id", "mix_file_id", "status", "error",
   "result", "queued_at", "started_at", "finished_at"]

end migrations

namespace s3

/-- `s3.Adapter`: a struct holding the bucket name. -/
structure Adapter where
  bucket : String

/-- `Adapter.DownloadToPath`: the Go body ignores all inputs and is
`return nil` — it never reports an error. -/
def Adapter.DownloadToPath (_a : Adapter) (_ctx : Ctx) (_objectKey _path : String) :
    Option String :=
  none

end s3

namespace engine

/-- `FailureCode` from spec §4.5: the closed vocabulary of QC failure
reasons. -/
inductive FailureCode where
  | SampleRateMismatch
  | BitDepthMismatch
  | ChannelLayoutInvalid
  | LoudnessOutOfBand
  | LoudnessCeilingExceeded
  | TruePeakExceeded
  | NamingMismatch
  | MetadataMissing (tagName : String)
deriving DecidableEq

/-- `Measurement` from spec §3: sample rate, bit depth, channel count,
integrated loudness (LUFS), true peak (dBTP). -/
structure Measurement where
  sampleRate : Int
  bitDepth : Int
  channels : Int
  integratedLUFS : ℚ
  truePeakDBTP : ℚ
deriving DecidableEq

/-- `Thresholds` from spec §3: per-mix-type requirements — sample rate,
bit depth, inclusive loudness band, optional hard ceiling, inclusive
true-peak limit, allowed channel counts. -/
structure Thresholds where
  requiredSampleRate : Int
  requiredBitDepth : Int
  bandLow : ℚ
  bandHigh : ℚ
  ceiling : Option ℚ
  truePeakLimit : ℚ
  allowedChannels : List Int
deriving DecidableEq

/-- A successful parse by the Naming Validator (spec §4.3): the extracted
artist/title/catalog/mix-type tokens.  The naming result handed to the
Decision Engine is `Option NamingParse`, with `none` standing for a
`NamingMismatch` parse error. -/
structure NamingParse where
  artist : String
  title : String
  catalogNumber : String
  mixTypeToken : String
deriving DecidableEq

/-- The required embedded tags from the repository's QC checklist
(README §Metadata) and spec §4.4, in declaration order.  ISRC is assigned
post-approval and deliberately not in this list. -/
def requiredTags : List String :=
  ["Artist", "Track Title", "Label Name", "Catalog Number", "Release Year"]

/-- Reading a Go `map[string]bool`: an absent key yields `false`. -/
def lookupTag (tagPresence : List (String × Bool)) (tag : String) : Bool :=
  match tagPresence.find? (fun p => p.1 = tag) with
  | some p => p.2
  | none => false

/-- The Beatport / Download Master thresholds from the repository's QC
checklist (README §A): 24-bit / 48 kHz, integrated loudness −8 to −6 LUFS,
hard ceiling −6 LUFS ("NEVER louder than −6"), true peak ≤ −1.0 dBTP,
stereo. -/
def beatportThresholds : Thresholds :=
  { requiredSampleRate := 48000
    requiredBitDepth := 24
    bandLow := -8
    bandHigh := -6
    ceiling := some (-6)
    truePeakLimit := -1
    allowedChannels := [2] }

/-- Modelled from the spec: the ordered failure list computed by the QC
Decision Engine (spec §4.5, checks 1–8), which is absent from the Go
sources (`FFmpegOrchestrator.Analyze` is an unimplemented stub).  Checks
run in the fixed order sample rate, bit depth, channels, loudness band,
loudness ceiling (additive, fires when a ceiling is defined and loudness
is at or above it), true peak, naming (only under strict naming), and one
`MetadataMissing` per missing required tag in declaration order. -/
def evaluateFailures (m : Measurement) (th : Thresholds)
    (namingResult : Option NamingParse) (tagPresence : List (String × Bool))
    (strictNaming : Bool) : List FailureCode :=
  (if m.sampleRate = th.requiredSampleRate then [] else [FailureCode.SampleRateMismatch]) ++
  (if m.bitDepth = th.requiredBitDepth then [] else [FailureCode.BitDepthMismatch]) ++
  (if m.channels ∈ th.allowedChannels then [] else [FailureCode.ChannelLayoutInvalid]) ++
  (if th.bandLow ≤ m.integratedLUFS ∧ m.integratedLUFS ≤ th.bandHigh then []
   else [FailureCode.LoudnessOutOfBand]) ++
  (match th.ceiling with
   | some c => if c ≤ m.integratedLUFS then [FailureCode.LoudnessCeilingExceeded] else []
   | none => []) ++
  (if m.truePeakDBTP ≤ th.truePeakLimit then [] else [FailureCode.TruePeakExceeded]) ++
  (if strictNaming = true ∧ namingResult = none then [FailureCode.NamingMismatch] else []) ++
  (requiredTags.filter (fun t => !(lookupTag tagPresence t))).map FailureCode.MetadataMissing

/-- `Verdict` from spec §3: pass flag, ordered failure codes, plus the raw
measurement and the naming/metadata detail retained for audit. -/
structure Verdict where
  passed : Bool
  failures : List FailureCode
  measurement : Measurement
  namingResult : Option NamingParse
  tagPresence : List (String × Bool)
deriving DecidableEq

/-- Modelled from the spec: the QC Decision Engine's
`Evaluate(measurement, thresholds, namingResult, tagPresence, strictNaming)
→ Verdict` (spec §4.5), absent from the Go sources.  `passed` is true iff
the failure list is empty; the raw inputs are retained in the Verdict. -/
def Evaluate (m : Measurement) (th : Thresholds) (namingResult : Option NamingParse)
    (tagPresence : List (String × Bool)) (strictNaming : Bool) : Verdict :=
  { passed := (evaluateFailures m th namingResult tagPresence strictNaming).isEmpty
    failures := evaluateFailures m th namingResult tagPresence strictNaming
    measurement := m
    namingResult := namingResult
    tagPresence := tagPresence }

/-- The tag names carried by the `MetadataMissing` entries of a failure
list, in order. -/
def metadataTags (failures : List FailureCode) : List String :=
  failures.filterMap (fun f =>
    match f with
    | FailureCode.MetadataMissing t => some t
    | _ => none)

/-- Analysis-level errors from spec §4.1: the Measurement Adapter's
failure modes, which the Lifecycle Manager turns into a `Failed` job. -/
inductive AnalysisError where
  | analysisUnavailable
  | analysisFailed
  | analysisTimeout
deriving DecidableEq

/-- The error string recorded on the job for an analysis error
(spec §4.6: "the error recorded verbatim"). -/
def AnalysisError.message : AnalysisError → String
  | .analysisUnavailable => "AnalysisUnavailable"
  | .analysisFailed => "AnalysisFailed"
  | .analysisTimeout => "AnalysisTimeout"

/-- Rendering a `FailureCode` into the string list stored in
`domain.QCResult.Failures`. -/
def FailureCode.render : FailureCode → String
  | .SampleRateMismatch => "SampleRateMismatch"
  | .BitDepthMismatch => "BitDepthMismatch"
  | .ChannelLayoutInvalid => "ChannelLayoutInvalid"
  | .LoudnessOutOfBand => "LoudnessOutOfBand"
  | .LoudnessCeilingExceeded => "LoudnessCeilingExceeded"
  | .TruePeakExceeded => "TruePeakExceeded"
  | .NamingMismatch => "NamingMismatch"
  | .MetadataMissing t => "MetadataMissing:" ++ t

/-- A `Verdict` stored as the `domain.QCResult` of a completed job. -/
def verdictToQCResult (v : Verdict) : domain.QCResult :=
  { sampleRate := v.measurement.sampleRate
    bitDepth := v.measurement.bitDepth
    channels := v.measurement.channels
    integratedLUFS := v.measurement.integratedLUFS
    truePeakDBTP := v.measurement.truePeakDBTP
    filenameValid := v.namingResult.isSome
    metadataPresent := v.tagPresence
    passed := v.passed
    failures := v.failures.map FailureCode.render }

/-- Modelled from the spec: the Job Lifecycle Manager's completion step
(spec §4.6, Failure handling), absent from the Go sources (`QCUseCase` has
only a constructor).  A Decision Engine result — a Verdict, pass or fail —
always transitions the running job to `Completed` with the verdict
recorded; an analysis error transitions it to `Failed` with the error
recorded verbatim. -/
def finishJob (j : domain.Job) (t : Int) (outcome : Except AnalysisError Verdict) :
    domain.Job :=
  match outcome with
  | .ok v =>
      { j with status := domain.JobStatus.completed
               result := some (verdictToQCResult v)
               finishedAt := some t }
  | .error e =>
      { j with status := domain.JobStatus.failed
               error := e.message
               finishedAt := some t }

end engine

namespace service

/-- The operations of the `service.JobRepository` interface: exactly
`Save` and `Update`, the only methods the job persistence boundary
exposes. -/
inductive RepoOp where
  | save (j : domain.Job)
  | update (j : domain.Job)
deriving DecidableEq

/-- The persisted job store, keyed by job id. -/
def JobStore : Type := String → Option domain.Job

/-- Modelled from the spec: the persistence boundary's semantics
(spec §6, "Save(job)/Update(job) ... read-your-writes").  `Save` and
`Update` both write the job under its id; neither operation removes any
stored job. -/
def applyOp (s : JobStore) : RepoOp → JobStore
  | .save j => fun k => if k = j.id then some j else s k
  | .update j => fun k => if k = j.id then some j else s k

/-- Apply a sequence of repository operations, oldest first. -/
def applyOps (s : JobStore) : List RepoOp → JobStore
  | [] => s
  | op :: ops => applyOps (applyOp s op) ops

end service

namespace engine

/-- Helper: `metadataTags` distributes over list append. -/
theorem metadataTags_append (a b : List FailureCode) :
    metadataTags (a ++ b) = metadataTags a ++ metadataTags b :=
  List.filterMap_append a b _

/-- Helper: the tags of a pure `MetadataMissing` block are the tags it was
built from. -/
theorem metadataTags_map_missing (l : List String) :
    metadataTags (l.map FailureCode.MetadataMissing) = l := by
  induction l with
  | nil => rfl
  | cons t ts ih => simp [metadataTags] at ih ⊢; exact ih

/-- Helper: a tag name that is present in the map survives the
missing-tag filter. -/
theorem filter_missing_eq_nil (tags : List (String × Bool))
    (h : ∀ t ∈ requiredTags, lookupTag tags t = true) :
    requiredTags.filter (fun t => !(lookupTag tags t)) = [] := by
  rw [List.filter_eq_nil_iff]
  intro t ht
  simp [h t ht]

end engine

/-- A tag-presence map with every required tag embedded. -/
def allTagsPresent : List (String × Bool) :=
  [("Artist", true), ("Track Title", true), ("Label Name", true),
   ("Catalog Number", true), ("Release Year", true)]

/-- A successful parse of the canonical Beatport example filename. -/
def beatportParse : engine.NamingParse :=
  { artist := "Artist"
    title := "Track"
    catalogNumber := "IMR-012"
    mixTypeToken := "BEATPORT MASTER" }

/-- Claim C1 (counterexample): at a concrete input, the sole `Engine`
implementation `FFmpegOrchestrator.Analyze` returns a non-nil error,
refuting "never raises or returns an error". -/
theorem analyze_errors_at_concrete_input :
    (qc.FFmpegOrchestrator.Analyze ⟨⟩ ⟨⟩
      ⟨"/tmp/mix.wav", "mix.wav", "BEATPORT_MASTER"⟩).2 ≠ none := by
  simp [qc.FFmpegOrchestrator.Analyze]

/-- Claim C1 (amended): `FFmpegOrchestrator.Analyze`, the sole
implementation of `Engine`, is a deterministic, total function, but on
every input it returns the zero `Result` together with the non-nil error
"ffmpeg orchestration not implemented"; it never returns an error-free
Verdict. -/
theorem analyze_always_not_implemented_error :
    ∀ (o : qc.FFmpegOrchestrator) (ctx : Ctx) (i : qc.Input),
      o.Analyze ctx i =
        (qc.Result.zero, some "ffmpeg orchestration not implemented") :=
  fun _ _ _ => rfl

/-- Claim C2: a measurement meeting the mix-type's thresholds on every
check (sample rate, bit depth, channel count, loudness band, strictly below
any ceiling, true peak at or under the limit), with a clean naming result
and all required tags present, evaluates to `passed = true` with an empty
failure sequence. -/
theorem evaluate_pass_within_thresholds :
    ∀ (m : engine.Measurement) (th : engine.Thresholds)
      (nr : Option engine.NamingParse) (tags : List (String × Bool))
      (strict : Bool),
      m.sampleRate = th.requiredSampleRate →
      m.bitDepth = th.requiredBitDepth →
      m.channels ∈ th.allowedChannels →
      th.bandLow ≤ m.integratedLUFS →
      m.integratedLUFS ≤ th.bandHigh →
      (∀ c, th.ceiling = some c → m.integratedLUFS < c) →
      m.truePeakDBTP ≤ th.truePeakLimit →
      (strict = true → nr ≠ none) →
      (∀ t ∈ engine.requiredTags, engine.lookupTag tags t = true) →
      (engine.Evaluate m th nr tags strict).passed = true ∧
        (engine.Evaluate m th nr tags strict).failures = [] := by
  intro m th nr tags strict h1 h2 h3 h4l h4h hc h6 h7 h8
  have hn : ¬(strict = true ∧ nr = none) := fun hp => h7 hp.1 hp.2
  have hfail : engine.evaluateFailures m th nr tags strict = [] := by
    cases hceq : th.ceiling with
    | none =>
        simp [engine.evaluateFailures, hceq, h1, h2, h3, h4l, h4h, h6, hn,
          engine.filter_missing_eq_nil tags h8]
    | some c =>
        have hlt : ¬(c ≤ m.integratedLUFS) := not_le.mpr (hc c hceq)
        simp [engine.evaluateFailures, hceq, h1, h2, h3, h4l, h4h, h6, hn, hlt,
          engine.filter_missing_eq_nil tags h8]
  exact ⟨by simp [engine.Evaluate, hfail], by simp [engine.Evaluate, hfail]⟩

/-- Claim C2 (witness, the spec's scenario): a Beatport mix measured at
48000 Hz, 24-bit, 2 channels, −7.0 LUFS, −1.2 dBTP, with a parsed filename
and all required tags embedded, passes with no failures. -/
theorem evaluate_beatport_scenario_passes :
    (engine.Evaluate ⟨48000, 24, 2, -7, -1.2⟩ engine.beatportThresholds
        (some beatportParse) allTagsPresent true).passed = true ∧
      (engine.Evaluate ⟨48000, 24, 2, -7, -1.2⟩ engine.beatportThresholds
        (some beatportParse) allTagsPresent true).failures = [] :=
  evaluate_pass_within_thresholds ⟨48000, 24, 2, -7, -1.2⟩
    engine.beatportThresholds (some beatportParse) allTagsPresent true
    rfl rfl (by decide) (by norm_num [engine.beatportThresholds])
    (by norm_num [engine.beatportThresholds])
    (by intro c hc; simp [engine.beatportThresholds] at hc; rw [← hc]; norm_num)
    (by norm_num [engine.beatportThresholds])
    (by intro _ h; exact Option.noConfusion h)
    (by intro t ht; fin_cases ht <;> rfl)

/-- Claim C3: whenever the thresholds define a hard ceiling and the
measured integrated loudness is at or above it, the verdict's failures
include `LoudnessCeilingExceeded` (without short-circuiting any other
check — the failure list is an append of all checks' contributions) and
the verdict does not pass. -/
theorem evaluate_ceiling_additive :
    ∀ (m : engine.Measurement) (th : engine.Thresholds)
      (nr : Option engine.NamingParse) (tags : List (String × Bool))
      (strict : Bool) (c : ℚ),
      th.ceiling = some c →
      c ≤ m.integratedLUFS →
      engine.FailureCode.LoudnessCeilingExceeded ∈
          (engine.Evaluate m th nr tags strict).failures ∧
        (engine.Evaluate m th nr tags strict).passed = false := by
  intro m th nr tags strict c hceq hle
  have hmem : engine.FailureCode.LoudnessCeilingExceeded ∈
      engine.evaluateFailures m th nr tags strict := by
    simp [engine.evaluateFailures, hceq, hle]
  refine ⟨hmem, ?_⟩
  have hne : engine.evaluateFailures m th nr tags strict ≠ [] :=
    List.ne_nil_of_mem hmem
  simp [engine.Evaluate, List.isEmpty_iff, hne]

/-- Claim C3 (witness, the spec's scenario): a Beatport mix at −5.8 LUFS —
above the −6 ceiling and outside the band — fails with
`LoudnessCeilingExceeded` firing alongside `LoudnessOutOfBand`. -/
theorem evaluate_beatport_ceiling_scenario :
    engine.FailureCode.LoudnessCeilingExceeded ∈
        (engine.Evaluate ⟨48000, 24, 2, -5.8, -1.2⟩ engine.beatportThresholds
          (some beatportParse) allTagsPresent true).failures ∧
      engine.FailureCode.LoudnessOutOfBand ∈
        (engine.Evaluate ⟨48000, 24, 2, -5.8, -1.2⟩ engine.beatportThresholds
          (some beatportParse) allTagsPresent true).failures ∧
      (engine.Evaluate ⟨48000, 24, 2, -5.8, -1.2⟩ engine.beatportThresholds
          (some beatportParse) allTagsPresent true).passed = false :=
  have h := evaluate_ceiling_additive ⟨48000, 24, 2, -5.8, -1.2⟩
    engine.beatportThresholds (some beatportParse) allTagsPresent true
    (-6) rfl (by norm_num)
  ⟨h.1,
   by
     simp [engine.Evaluate, engine.evaluateFailures, engine.beatportThresholds]
     norm_num,
   h.2⟩

/-- Claim C4: for every verdict the evaluation produces, `passed` is true
iff the failure sequence is empty. -/
theorem evaluate_passed_iff_failures_empty :
    ∀ (m : engine.Measurement) (th : engine.Thresholds)
      (nr : Option engine.NamingParse) (tags : List (String × Bool))
      (strict : Bool),
      (engine.Evaluate m th nr tags strict).passed = true ↔
        (engine.Evaluate m th nr tags strict).failures = [] := by
  intro m th nr tags strict
  simp [engine.Evaluate, List.isEmpty_iff]

/-- Claim C5: the `MetadataMissing` entries of any verdict are exactly the
required tags absent from the tag-presence map — one entry per missing tag,
in the required-tag declaration order — where the required set is Artist,
Track Title, Label Name, Catalog Number, Release Year, and ISRC is not
required. -/
theorem evaluate_metadata_missing_enumerates :
    ∀ (m : engine.Measurement) (th : engine.Thresholds)
      (nr : Option engine.NamingParse) (tags : List (String × Bool))
      (strict : Bool),
      engine.metadataTags (engine.Evaluate m th nr tags strict).failures =
          engine.requiredTags.filter (fun t => !(engine.lookupTag tags t)) ∧
        engine.requiredTags =
          ["Artist", "Track Title", "Label Name", "Catalog Number",
           "Release Year"] ∧
        "ISRC" ∉ engine.requiredTags := by
  intro m th nr tags strict
  refine ⟨?_, rfl, by decide⟩
  show engine.metadataTags (engine.evaluateFailures m th nr tags strict) = _
  unfold engine.evaluateFailures
  rw [engine.metadataTags_append, engine.metadataTags_append,
    engine.metadataTags_append, engine.metadataTags_append,
    engine.metadataTags_append, engine.metadataTags_append,
    engine.metadataTags_append, engine.metadataTags_map_missing]
  cases th.ceiling <;> split_ifs <;> simp [engine.metadataTags]

/-- Claim C6: contrary to the claim, neither the `domain.Job` struct nor
the `qc_jobs` table carries a catalog reference state — a `Job` value
consists of exactly its identity, the three foreign references, status,
error string, optional result and the three timestamps. -/
theorem job_lacks_catalog_reference_state :
    "catalog_reference_state" ∉ migrations.qcJobsColumns ∧
      "catalog_ref_state" ∉ migrations.qcJobsColumns ∧
      "CatalogRefState" ∉ domain.jobFields ∧
      "CatalogReferenceState" ∉ domain.jobFields ∧
      ∀ j : domain.Job,
        j = { id := j.id, releaseID := j.releaseID, trackID := j.trackID,
              mixFileID := j.mixFileID, status := j.status, error := j.error,
              result := j.result, queuedAt := j.queuedAt,
              startedAt := j.startedAt, finishedAt := j.finishedAt } :=
  ⟨by decide, by decide, by decide, by decide, fun j => by cases j; rfl⟩

/-- Claim C7: a Decision Engine Verdict — pass or fail — always
transitions the job to `Completed` (never `Failed`) with the verdict
recorded, while an analysis error (e.g. `AnalysisUnavailable`,
`AnalysisTimeout`) transitions the job to `Failed`. -/
theorem finish_job_verdict_completes_never_fails :
    ∀ (j : domain.Job) (t : Int) (v : engine.Verdict)
      (e : engine.AnalysisError),
      (engine.finishJob j t (Except.ok v)).status = domain.JobStatus.completed ∧
        (engine.finishJob j t (Except.ok v)).status ≠ domain.JobStatus.failed ∧
        (engine.finishJob j t (Except.ok v)).result =
          some (engine.verdictToQCResult v) ∧
        (engine.finishJob j t (Except.error e)).status =
          domain.JobStatus.failed :=
  fun _ _ _ _ => ⟨rfl, by simp [engine.finishJob], rfl, rfl⟩

/-- Claim C8: the evaluation is deterministic — two invocations with
identical inputs return identical verdicts, and in particular failure
sequences that are equal element for element. -/
theorem evaluate_deterministic :
    ∀ (m₁ m₂ : engine.Measurement) (th₁ th₂ : engine.Thresholds)
      (nr₁ nr₂ : Option engine.NamingParse)
      (tags₁ tags₂ : List (String × Bool)) (s₁ s₂ : Bool),
      m₁ = m₂ → th₁ = th₂ → nr₁ = nr₂ → tags₁ = tags₂ → s₁ = s₂ →
      engine.Evaluate m₁ th₁ nr₁ tags₁ s₁ = engine.Evaluate m₂ th₂ nr₂ tags₂ s₂ ∧
        (engine.Evaluate m₁ th₁ nr₁ tags₁ s₁).failures =
          (engine.Evaluate m₂ th₂ nr₂ tags₂ s₂).failures := by
  intro m₁ m₂ th₁ th₂ nr₁ nr₂ tags₁ tags₂ s₁ s₂ hm hth hnr htags hs
  subst hm; subst hth; subst hnr; subst htags; subst hs
  exact ⟨rfl, rfl⟩

/-- Claim C8 (witness): two invocations on the concrete Beatport input
agree, failure sequence included. -/
theorem evaluate_deterministic_at_beatport_input :
    engine.Evaluate ⟨48000, 24, 2, -7, -1.2⟩ engine.beatportThresholds
        (some beatportParse) allTagsPresent true =
      engine.Evaluate ⟨48000, 24, 2, -7, -1.2⟩ engine.beatportThresholds
        (some beatportParse) allTagsPresent true ∧
      (engine.Evaluate ⟨48000, 24, 2, -7, -1.2⟩ engine.beatportThresholds
        (some beatportParse) allTagsPresent true).failures =
      (engine.Evaluate ⟨48000, 24, 2, -7, -1.2⟩ engine.beatportThresholds
        (some beatportParse) allTagsPresent true).failures :=
  evaluate_deterministic ⟨48000, 24, 2, -7, -1.2⟩ ⟨48000, 24, 2, -7, -1.2⟩
    engine.beatportThresholds engine.beatportThresholds
    (some beatportParse) (some beatportParse) allTagsPresent allTagsPresent
    true true rfl rfl rfl rfl rfl

namespace service

/-- Helper: one repository operation never removes a stored job. -/
theorem applyOp_preserves (s : JobStore) (op : RepoOp) (k : String)
    (h : (s k).isSome = true) : ((applyOp s op) k).isSome = true := by
  cases op <;> (simp [applyOp]; split_ifs <;> simp [h])

end service

/-- Claim C9: the job persistence boundary exposes only `Save` and
`Update`, and under every sequence of repository operations a job that is
stored — in particular a `Completed` or `Failed` one — remains stored. -/
theorem job_store_never_deletes :
    (∀ op : service.RepoOp,
        (∃ j, op = service.RepoOp.save j) ∨
          (∃ j, op = service.RepoOp.update j)) ∧
      ∀ (ops : List service.RepoOp) (s : service.JobStore) (k : String),
        (s k).isSome = true → ((service.applyOps s ops) k).isSome = true := by
  constructor
  · intro op
    cases op with
    | save j => exact Or.inl ⟨j, rfl⟩
    | update j => exact Or.inr ⟨j, rfl⟩
  · intro ops
    induction ops with
    | nil => intro s k h; exact h
    | cons op rest ih =>
        intro s k h
        exact ih (service.applyOp s op) k (service.applyOp_preserves s op k h)

/-- A concrete completed job used to witness the persistence property. -/
def completedJob : domain.Job :=
  { id := "job-1"
    releaseID := "rel-1"
    trackID := "trk-1"
    mixFileID := "mix-1"
    status := domain.JobStatus.completed
    error := ""
    result := none
    queuedAt := 0
    startedAt := some 1
    finishedAt := some 2 }

/-- A store holding only `completedJob`. -/
def storeWithCompletedJob : service.JobStore :=
  fun k => if k = "job-1" then some completedJob else none

/-- Claim C9 (witness): after a save of another job and an update of this
one, the completed job `job-1` is still stored. -/
theorem job_store_keeps_completed_job :
    ((service.applyOps storeWithCompletedJob
        [service.RepoOp.save { completedJob with id := "job-2" },
         service.RepoOp.update completedJob]) "job-1").isSome = true :=
  job_store_never_deletes.2
    [service.RepoOp.save { completedJob with id := "job-2" },
     service.RepoOp.update completedJob]
    storeWithCompletedJob "job-1" (by simp [storeWithCompletedJob, completedJob])

/-- Claim C10: the S3 adapter's `DownloadToPath` returns a nil error on
every context, object key and destination path — the storage boundary as
implemented can never report a download failure. -/
theorem download_to_path_never_errors :
    ∀ (a : s3.Adapter) (ctx : Ctx) (objectKey path : String),
      s3.Adapter.DownloadToPath a ctx objectKey path = none :=
  fun _ _ _ _ => rfl
